import Mathlib

/-!
# Verification of the video-transcriber orchestration pipeline

A shallow embedding, in Lean 4, of the transcription pipeline implemented in
`src/transcriber.ts`.  Pure string-processing functions (filename
sanitisation, date/duration formatting, URL-pattern identifier extraction,
retry gating and backoff) are translated directly.  The orchestrator
`transcribeVideo` is embedded as a function over an explicit environment of
external-call outcomes (each `exec`/filesystem call is an oracle value) and
an explicit filesystem state tracking the temporary working directory and
the files written to the destination directory.
-/

namespace VideoTranscriber

/-! ## Filename sanitiser (`sanitizeFilename`, transcriber.ts lines 195-202) -/

/-- The characters removed by the first rewrite rule of `sanitizeFilename`:
the JS regex character class `[<>:"/\\|?*\x00-\x1F]`. -/
def isIllegalFsChar (c : Char) : Bool :=
  c == '<' || c == '>' || c == ':' || c == '"' || c == '/' || c == '\\' ||
  c == '|' || c == '?' || c == '*' || decide (c.toNat ≤ 0x1F)

/-- The character class matched by the JS regex `\s`: ASCII whitespace,
the no-break space, and the Unicode space separators recognised by
ECMAScript (including U+2028, U+2029, U+FEFF). -/
def isJsSpace (c : Char) : Bool :=
  let n := c.toNat
  n == 9 || n == 10 || n == 11 || n == 12 || n == 13 || n == 32 ||
  n == 160 || n == 0x1680 || (decide (0x2000 ≤ n) && decide (n ≤ 0x200a)) ||
  n == 0x2028 || n == 0x2029 || n == 0x202f || n == 0x205f || n == 0x3000 ||
  n == 0xfeff

/-- `str.replace(/\s+/g, "-")`: every maximal run of JS whitespace becomes a
single hyphen. -/
def collapseWs : List Char → List Char
  | [] => []
  | [c] => if isJsSpace c then ['-'] else [c]
  | a :: b :: rest =>
    if isJsSpace a && isJsSpace b then collapseWs (b :: rest)
    else (if isJsSpace a then '-' else a) :: collapseWs (b :: rest)

/-- `str.replace` with the global regex `--+` and replacement `-`: every
maximal run of two or more hyphens becomes a single hyphen (equivalently,
hyphen runs are collapsed to one). -/
def collapseHyphens : List Char → List Char
  | [] => []
  | [c] => [c]
  | a :: b :: rest =>
    if a == '-' && b == '-' then collapseHyphens (b :: rest)
    else a :: collapseHyphens (b :: rest)

/-- `str.replace(/^-+|-+$/g, "")`: strip the leading run and the trailing
run of hyphens. -/
def trimHyphens (l : List Char) : List Char :=
  ((l.dropWhile (fun c => c == '-')).reverse.dropWhile (fun c => c == '-')).reverse

/-- `sanitizeFilename` on the character list of the input string: remove
illegal filesystem characters, collapse whitespace runs to `-`, collapse
hyphen runs, trim leading/trailing hyphens, truncate to 150
(`.substring(0, 150)`). -/
def sanitizeList (l : List Char) : List Char :=
  (trimHyphens (collapseHyphens (collapseWs
    (l.filter (fun c => !isIllegalFsChar c))))).take 150

/-- `sanitizeFilename` (transcriber.ts lines 195-202). -/
def sanitizeFilename (s : String) : String := ⟨sanitizeList s.data⟩

/-- `true` when no two adjacent characters are both hyphens: the shape the
regex rewrite with pattern `--+` establishes. -/
def noDoubleHyphen : List Char → Bool
  | a :: b :: rest => !(a == '-' && b == '-') && noDoubleHyphen (b :: rest)
  | _ => true

/-! ## JavaScript value model

The metadata object parsed from the download tool's JSON is accessed with
JS truthiness semantics (`metadata.title || "Unknown"`, `if (metadata.id)`).
A string-valued field is either absent (`undefined`) or a string, and the
empty string is falsy; a number-valued field is absent or a number, and `0`
is falsy. -/

/-- A JS value read from a string-typed metadata field: `undefined` or a
string.  The empty string is falsy, like `undefined`. -/
inductive JStr where
  | undef : JStr
  | str : String → JStr
deriving DecidableEq

/-- JS truthiness of a string field. -/
def JStr.truthy : JStr → Bool
  | .undef => false
  | .str s => !(s == "")

/-- The JS expression `v || d` for a string field `v` and string default `d`. -/
def JStr.orDefault : JStr → String → String
  | .undef, d => d
  | .str s, d => if s == "" then d else s

/-- A JS value read from a number-typed metadata field: `undefined` or an
integer (the shallow model of a JS number).  `0` is falsy. -/
inductive JNum where
  | undef : JNum
  | num : Int → JNum
deriving DecidableEq

/-- The JS expression `v || d` for a number field `v` and default `d`. -/
def JNum.orDefault : JNum → Int → Int
  | .undef, d => d
  | .num n, d => if n == 0 then d else n

/-- The fields of the yt-dlp metadata object that `transcribeVideo`,
`extractVideoId` and `detectPlatform` read (transcriber.ts lines 46-89 and
340-350). -/
structure RemoteMeta where
  id : JStr := .undef
  title : JStr := .undef
  channel : JStr := .undef
  duration : JNum := .undef
  upload_date : JStr := .undef
  extractor : JStr := .undef
deriving DecidableEq

/-! ## Substring containment (JS `String.prototype.includes`) -/

/-- `String.prototype.toLowerCase` restricted to the ASCII range (the only
range the lowercased comparisons of this module distinguish), written on
the character list so that it evaluates inside the kernel. -/
def toLowerStr (s : String) : String := ⟨s.data.map Char.toLower⟩

/-- `sub` occurs contiguously inside `l`. -/
def containsSub : List Char → List Char → Bool
  | [], sub => sub.isEmpty
  | a :: t, sub => sub.isPrefixOf (a :: t) || containsSub t sub

/-- `s.includes(sub)`: `sub` occurs contiguously inside `s`. -/
def hasSubstr (s sub : String) : Bool := containsSub s.data sub.data

/-! ## URL classification (`isUrl`, `validateUrl`, transcriber.ts lines 94-112)

`isUrl` and `validateUrl` call the platform's WHATWG `URL` constructor,
which is not part of this repository.  `parseURL` models the subset of its
behaviour these two functions observe: a string parses when it begins with
a valid scheme (a letter followed by letters, digits, `+`, `-` or `.`)
terminated by `:`; a special scheme (http, https, ws, wss, ftp) further
requires a nonempty host after the optional slashes.  On success it yields
`url.protocol`, the lowercased scheme with a trailing colon. -/

/-- A character allowed after the first in a URL scheme. -/
def urlSchemeChar (c : Char) : Bool :=
  c.isAlphanum || c == '+' || c == '-' || c == '.'

/-- Model of the platform `new URL(s)` call as observed by `isUrl` and
`validateUrl`: `some protocol` when the string parses as an absolute URL,
`none` when the constructor throws. -/
def parseURL (s : String) : Option String :=
  let l := s.data
  let pre := l.takeWhile (fun c => !(c == ':'))
  if pre.length == l.length then none
  else
    match pre with
    | [] => none
    | c :: cs =>
      if c.isAlpha && cs.all urlSchemeChar then
        let scheme : String := ⟨(c :: cs).map Char.toLower⟩
        if scheme == "http" || scheme == "https" || scheme == "ws" ||
            scheme == "wss" || scheme == "ftp" then
          let rest := l.drop (pre.length + 1)
          let afterSlashes := rest.dropWhile (fun x => x == '/' || x == '\\')
          let host := afterSlashes.takeWhile
            (fun x => !(x == '/') && !(x == '\\') && !(x == '?') && !(x == '#'))
          if host.isEmpty then none else some (scheme ++ ":")
        else some (scheme ++ ":")
      else none

/-- `isUrl` (transcriber.ts lines 94-101): the input parses as a URL whose
protocol is `http:` or `https:`. -/
def isUrl (input : String) : Bool :=
  match parseURL input with
  | some protocol => protocol == "http:" || protocol == "https:"
  | none => false

/-- The two classifications of a reference string. -/
inductive SourceKind where
  | remote : SourceKind
  | localFile : SourceKind
deriving DecidableEq

/-- The classification `transcribeVideo` makes at line 292:
`const isLocalFile = !isUrl(url)`. -/
def classifyInput (s : String) : SourceKind :=
  if isUrl s then .remote else .localFile

/-- `validateUrl` (transcriber.ts lines 106-112): re-parses the URL and
throws `Invalid URL format` when the constructor throws. -/
def validateUrl (url : String) : Except String Unit :=
  match parseURL url with
  | some _ => .ok ()
  | none => .error ("Invalid URL format: " ++ url)

/-! ## Local-file validation (`validateLocalFile`, transcriber.ts lines 117-131) -/

/-- Node `path.basename` on a POSIX path: the part after the last `/`. -/
def pathBasename (s : String) : String :=
  ⟨(s.data.reverse.takeWhile (fun c => !(c == '/'))).reverse⟩

/-- Node `path.extname`: the suffix of the basename from its last `.`;
empty when there is no dot or the only dot is the leading character of the
basename. -/
def extnameOf (s : String) : String :=
  let b := (pathBasename s).data
  let afterDot := b.reverse.takeWhile (fun c => !(c == '.'))
  if afterDot.length == b.length then ""
  else if afterDot.length + 1 == b.length && b.head? == some '.' then ""
  else ⟨'.' :: afterDot.reverse⟩

/-- Node `path.basename(p, path.extname(p))`: the basename with its
extension removed, as used by `getLocalVideoMetadata` (line 161). -/
def basenameNoExt (s : String) : String :=
  let b := (pathBasename s).data
  let e := (extnameOf s).data
  ⟨b.take (b.length - e.length)⟩

/-- The extension allow-list of `validateLocalFile` (line 126). -/
def videoExtensions : List String :=
  [".mp4", ".avi", ".mov", ".mkv", ".flv", ".wmv", ".webm", ".m4v",
   ".mpg", ".mpeg", ".3gp", ".ogv"]

/-- `validateLocalFile` (transcriber.ts lines 117-131).  The filesystem is
abstracted: `fileOnDisk` is the value of `existsSync(absolutePath)` and
`absolutePath` the value of `resolve(filePath)`. -/
def validateLocalFile (fileOnDisk : Bool) (absolutePath : String) :
    Except String Unit :=
  if !fileOnDisk then .error ("File not found: " ++ absolutePath)
  else
    let ext := toLowerStr (extnameOf absolutePath)
    if !(videoExtensions.contains ext) then
      .error ("Unsupported file format: " ++ ext ++ ". Expected video file.")
    else .ok ()

/-! ## Platform detection (`detectPlatform`, transcriber.ts lines 65-89) -/

/-- `detectPlatform`: URL substring table first, then the metadata
extractor name (a truthy check followed by substring normalisation). -/
def detectPlatform (url : String) (metadata : RemoteMeta) : String :=
  let urlLower := toLowerStr url
  if hasSubstr urlLower "youtube.com" || hasSubstr urlLower "youtu.be" then "YouTube"
  else if hasSubstr urlLower "vimeo.com" then "Vimeo"
  else if hasSubstr urlLower "tiktok.com" then "TikTok"
  else if hasSubstr urlLower "twitter.com" || hasSubstr urlLower "x.com" then "Twitter/X"
  else if hasSubstr urlLower "facebook.com" || hasSubstr urlLower "fb.watch" then "Facebook"
  else if hasSubstr urlLower "instagram.com" then "Instagram"
  else if hasSubstr urlLower "twitch.tv" then "Twitch"
  else if hasSubstr urlLower "dailymotion.com" then "Dailymotion"
  else
    match metadata.extractor with
    | .str s =>
      if s == "" then "Unknown"
      else
        let extractor := toLowerStr s
        if hasSubstr extractor "youtube" then "YouTube"
        else if hasSubstr extractor "vimeo" then "Vimeo"
        else if hasSubstr extractor "tiktok" then "TikTok"
        else if hasSubstr extractor "twitter" then "Twitter/X"
        else s
    | .undef => "Unknown"

/-! ## Stable identifier extraction (`extractVideoId`, transcriber.ts lines 46-60) -/

/-- The regex `[?&]v=([^&]+)` applied by JS `String.prototype.match`: the
first position holding `?` or `&` followed by `v=` and at least one
character other than `&`; the capture runs greedily to the next `&`. -/
def vParamMatch : List Char → Option (List Char)
  | [] => none
  | c :: rest =>
    if (c == '?' || c == '&') && rest.take 2 == ['v', '='] then
      let cap := (rest.drop 2).takeWhile (fun x => !(x == '&'))
      if cap.isEmpty then vParamMatch rest else some cap
    else vParamMatch rest

/-- The regex `youtu\.be\/([^?]+)`: the first occurrence of the literal
`youtu.be/` followed by at least one character other than `?`; the capture
runs greedily to the next `?`. -/
def ytShortMatch : List Char → Option (List Char)
  | [] => none
  | c :: rest =>
    if (c :: rest).take 9 == "youtu.be/".data then
      let cap := ((c :: rest).drop 9).takeWhile (fun x => !(x == '?'))
      if cap.isEmpty then ytShortMatch rest else some cap
    else ytShortMatch rest

/-- UTF-8 bytes of one code point, as `Buffer.from(url)` encodes a JS
string. -/
def utf8Bytes (c : Char) : List Nat :=
  let n := c.toNat
  if n < 0x80 then [n]
  else if n < 0x800 then [0xC0 + n / 64, 0x80 + n % 64]
  else if n < 0x10000 then
    [0xE0 + n / 4096, 0x80 + n / 64 % 64, 0x80 + n % 64]
  else
    [0xF0 + n / 262144, 0x80 + n / 4096 % 64, 0x80 + n / 64 % 64, 0x80 + n % 64]

/-- The base64 alphabet. -/
def b64Char (n : Nat) : Char :=
  ("ABCDEFGHIJKLMNOPQRSTUVWXYZabcdefghijklmnopqrstuvwxyz0123456789+/").data.getD n 'A'

/-- Standard base64 of a byte list, as `buffer.toString('base64')`. -/
def base64Encode : List Nat → List Char
  | [] => []
  | [a] => [b64Char (a / 4), b64Char (a % 4 * 16), '=', '=']
  | [a, b] => [b64Char (a / 4), b64Char (a % 4 * 16 + b / 16), b64Char (b % 16 * 4), '=']
  | a :: b :: c :: rest =>
    b64Char (a / 4) :: b64Char (a % 4 * 16 + b / 16) ::
    b64Char (b % 16 * 4 + c / 64) :: b64Char (c % 64) :: base64Encode rest

/-- The deterministic fallback identifier (line 58):
`Buffer.from(url).toString('base64').substring(0, 11)` with `+` and `/`
replaced by `-` and `_`. -/
def urlHashId (url : String) : String :=
  ⟨((base64Encode (url.data.flatMap utf8Bytes)).take 11).map
    (fun c => if c == '+' then '-' else if c == '/' then '_' else c)⟩

/-- `extractVideoId` (transcriber.ts lines 46-60). -/
def extractVideoId (url : String) (metadata : RemoteMeta) : String :=
  match vParamMatch url.data with
  | some cap => ⟨cap⟩
  | none =>
    match ytShortMatch url.data with
    | some cap => ⟨cap⟩
    | none =>
      if metadata.id.truthy then metadata.id.orDefault ""
      else urlHashId url

/-! ## Formatting helpers (transcriber.ts lines 207-220) -/

/-- `String(n).padStart(2, "0")`. -/
def padStart2 (s : String) : String :=
  if s.length ≥ 2 then s else if s.length == 1 then "0" ++ s else "00"

/-- `formatDuration` (lines 207-212): seconds to `HH:MM:SS`.  JS `%` is the
truncated remainder and `Math.floor` of the quotient is flooring division. -/
def formatDuration (seconds : Int) : String :=
  let hours := Int.fdiv seconds 3600
  let minutes := Int.fdiv (Int.tmod seconds 3600) 60
  let secs := Int.tmod seconds 60
  padStart2 (toString hours) ++ ":" ++ padStart2 (toString minutes) ++ ":" ++
    padStart2 (toString secs)

/-- `formatDate` (lines 217-220): an 8-character `YYYYMMDD` string gains
hyphens; everything else (including the falsy empty string) is returned
unchanged. -/
def formatDate (dateStr : String) : String :=
  if dateStr == "" || !(dateStr.length == 8) then dateStr
  else
    (⟨dateStr.data.take 4⟩ : String) ++ "-" ++ (⟨(dateStr.data.drop 4).take 2⟩ : String)
      ++ "-" ++ (⟨(dateStr.data.drop 6).take 2⟩ : String)

/-! ## Resilient executor (`execWithRetry`, transcriber.ts lines 240-276)

A command invocation is abstracted as an oracle `outcomes : Nat →
Except String String` giving each attempt's result (the `.error` payload is
the thrown message, the `.ok` payload the captured stdout).  The function
returns the final outcome together with the backoff delays it slept, in
order. -/

/-- The transient-network test (lines 256-261) on the lowercased message. -/
def isNetworkError (errorMsg : String) : Bool :=
  let m := toLowerStr errorMsg
  hasSubstr m "network" || hasSubstr m "connection" || hasSubstr m "timeout" ||
  hasSubstr m "unreachable" || hasSubstr m "temporary failure"

/-- The backoff delay slept after failing attempt number `attempt`
(line 267): `Math.min(1000 * Math.pow(2, attempt - 1), 10000)`. -/
def backoffDelay (attempt : Nat) : Nat :=
  min (1000 * 2 ^ (attempt - 1)) 10000

/-- The retry loop of `execWithRetry` over the remaining attempt numbers.
The empty-list case is reached only when the loop body never ran
(`maxRetries = 0`), where the JS rethrows the null `lastError`. -/
def execRetryLoop (outcomes : Nat → Except String String) (maxRetries : Nat) :
    List Nat → Except String String × List Nat
  | [] => (.error "null", [])
  | attempt :: rest =>
    match outcomes attempt with
    | .ok r => (.ok r, [])
    | .error m =>
      if !isNetworkError m || attempt == maxRetries then (.error m, [])
      else
        let d := backoffDelay attempt
        let (res, ds) := execRetryLoop outcomes maxRetries rest
        (res, d :: ds)

/-- `execWithRetry` (lines 240-276): attempts are numbered `1..maxRetries`. -/
def execWithRetry (outcomes : Nat → Except String String)
    (maxRetries : Nat) : Except String String × List Nat :=
  execRetryLoop outcomes maxRetries (List.range' 1 maxRetries)

/-! ## The orchestrator (`transcribeVideo`, transcriber.ts lines 283-452)

Every external effect is abstracted as an oracle value in `PipelineEnv`
(the outcome the corresponding call would produce) and the filesystem
facts the claims are about — whether this run's temporary working
directory currently exists, and which files have been written to the
destination directory — are threaded as explicit state.  Progress
callbacks are pure notifications and are dropped.  A failing
`writeFileSync` is modelled as writing nothing. -/

/-- Caller-supplied options (the `TranscriptionOptions` interface with the
defaults of lines 284-290 applied). -/
structure TranscriptionOptions where
  url : String
  outputDir : String
  model : String := "base"
  language : String := "auto"
deriving DecidableEq

/-- The three artifact paths of a successful run. -/
structure TranscriptionFiles where
  txt : String
  json : String
  md : String
deriving DecidableEq

/-- The `VideoMetadata` carried by a successful result. -/
structure VideoMetadata where
  videoId : String
  title : String
  channel : String
  duration : Int
  uploadDate : String
  platform : String
  url : String
deriving DecidableEq

/-- The `TranscriptionResult` of a successful run. -/
structure TranscriptionResult where
  success : Bool
  files : TranscriptionFiles
  metadata : VideoMetadata
  transcript : String
  transcriptPreview : String
deriving DecidableEq

deriving instance DecidableEq for Except

/-- Oracle outcomes for each external call `transcribeVideo` makes, in
source order.  `resolvedPath` is `resolve(url)` and `fileOnDisk` is
`existsSync(resolvedPath)` for the local branch; `localProbe` is the
duration `getLocalVideoMetadata` computes (`none` when ffprobe threw and
the catch block defaulted it); the `Except` fields are the outcomes of the
ffmpeg extraction, the metadata fetch (yt-dlp dump-json plus `JSON.parse`),
the audio download, the whisper invocation, the two `readFileSync` calls,
the three `writeFileSync` calls, and the two `rmSync` call sites (the one
inside the `try` on the success path, and the one inside the `catch`). -/
structure PipelineEnv where
  resolvedPath : String := ""
  fileOnDisk : Bool := true
  localProbe : Option Int := none
  extractAudio : Except String Unit := .ok ()
  fetchMetadata : Except String RemoteMeta := .ok {}
  downloadAudio : Except String Unit := .ok ()
  runWhisper : Except String Unit := .ok ()
  readTxt : Except String String := .ok ""
  readJson : Except String String := .ok ""
  writeTxt : Except String Unit := .ok ()
  writeJson : Except String Unit := .ok ()
  writeMd : Except String Unit := .ok ()
  removeTemp : Except String Unit := .ok ()
  removeTempRetry : Except String Unit := .ok ()
deriving DecidableEq

/-- The filesystem facts the claims observe: whether this run's temporary
working directory exists, and the `(path, content)` pairs written to the
destination directory, in write order. -/
structure FsState where
  tempDirExists : Bool := false
  destFiles : List (String × String) := []
deriving DecidableEq

/-- `path.join(outputDir, name)`, modelled as separator concatenation. -/
def joinPath (dir name : String) : String := dir ++ "/" ++ name

/-- `writeFileSync(path, content)` on the destination directory. -/
def writeDest (path content : String) (st : FsState) : FsState :=
  { st with destFiles := st.destFiles ++ [(path, content)] }

/-- One `rmSync(tempDir, { recursive: true, force: true })` call:
`force` makes removal of an already-absent directory a no-op success, and
a failed removal leaves the directory in place. -/
def rmTemp (outcome : Except String Unit) (st : FsState) :
    Except String Unit × FsState :=
  if st.tempDirExists then
    match outcome with
    | .ok _ => (.ok (), { st with tempDirExists := false })
    | .error e => (.error e, st)
  else (.ok (), st)

/-- The markdown document text before the embedded transcript
(lines 393-406 of the template literal). -/
def mdPre (videoTitle url platform videoChannel videoId : String)
    (videoDuration : Int) (videoUploadDate : String) : String :=
  "# " ++ videoTitle ++ "\n\n**Video:** " ++ url ++ "\n**Platform:** " ++ platform ++
  "\n**Channel:** " ++ videoChannel ++ "\n**Video ID:** " ++ videoId ++
  "\n**Duration:** " ++ formatDuration videoDuration ++ "\n**Published:** " ++
  formatDate videoUploadDate ++ "\n\n---\n\n## Transcript\n\n"

/-- The markdown document text after the embedded transcript
(lines 406-411 of the template literal). -/
def mdPost (model language : String) : String :=
  "\n\n---\n\n*Transcribed using OpenAI Whisper (model: " ++ model ++
  (if !(language == "auto") then ", language: " ++ language else "") ++ ")*\n"

/-- The markdown content written to the `.md` artifact (lines 393-411). -/
def mdContent (videoTitle url platform videoChannel videoId : String)
    (videoDuration : Int) (videoUploadDate model language txtContent : String) :
    String :=
  mdPre videoTitle url platform videoChannel videoId videoDuration videoUploadDate
    ++ txtContent ++ mdPost model language

/-- The source-acquisition phase (lines 315-360): platform label, video id,
title, channel, duration and upload date, failing when the branch's
external calls fail.  The local branch is `getLocalVideoMetadata` (whose
ffprobe failure is caught and defaulted, lines 159-190) followed by
`extractAudioFromLocal` (whose failure is wrapped, lines 136-154); the
remote branch is the metadata fetch followed by truthiness-defaulting
(lines 346-350) and the audio download. -/
def acquireSource (env : PipelineEnv) (opts : TranscriptionOptions)
    (isLocalFile : Bool) :
    Except String (String × String × String × String × Int × String) :=
  if isLocalFile then
    let fileName := basenameNoExt env.resolvedPath
    let duration : Int := match env.localProbe with | some d => d | none => 0
    match env.extractAudio with
    | .error e => .error ("Failed to extract audio: " ++ e)
    | .ok _ => .ok ("Local File", fileName, fileName, "Local File", duration, "")
  else
    match env.fetchMetadata with
    | .error m => .error m
    | .ok metadata =>
      let platform := detectPlatform opts.url metadata
      let videoId := extractVideoId opts.url metadata
      let videoTitle := metadata.title.orDefault "Unknown"
      let videoChannel := metadata.channel.orDefault "Unknown"
      let videoDuration := metadata.duration.orDefault 0
      let videoUploadDate := metadata.upload_date.orDefault ""
      match env.downloadAudio with
      | .error m => .error m
      | .ok _ => .ok (platform, videoId, videoTitle, videoChannel, videoDuration,
          videoUploadDate)

/-- The body of the `try` block (lines 305-440): acquisition, whisper,
reading the engine outputs, writing the three artifacts, and the
success-path `rmSync`, threading the filesystem state. -/
def transcribeBody (env : PipelineEnv) (opts : TranscriptionOptions)
    (isLocalFile : Bool) (st : FsState) :
    Except String TranscriptionResult × FsState :=
  match acquireSource env opts isLocalFile with
  | .error m => (.error m, st)
  | .ok (platform, videoId, videoTitle, videoChannel, videoDuration, videoUploadDate) =>
    let safeFilename := videoId ++ "-" ++ sanitizeFilename videoTitle
    match env.runWhisper with
    | .error m => (.error m, st)
    | .ok _ =>
      match env.readTxt with
      | .error m => (.error m, st)
      | .ok txtContent =>
        match env.readJson with
        | .error m => (.error m, st)
        | .ok jsonContent =>
          let txtOutput := joinPath opts.outputDir (safeFilename ++ ".txt")
          let jsonOutput := joinPath opts.outputDir (safeFilename ++ ".json")
          let mdOutput := joinPath opts.outputDir (safeFilename ++ ".md")
          match env.writeTxt with
          | .error m => (.error m, st)
          | .ok _ =>
            let st1 := writeDest txtOutput txtContent st
            match env.writeJson with
            | .error m => (.error m, st1)
            | .ok _ =>
              let st2 := writeDest jsonOutput jsonContent st1
              match env.writeMd with
              | .error m => (.error m, st2)
              | .ok _ =>
                let st3 := writeDest mdOutput
                  (mdContent videoTitle opts.url platform videoChannel videoId
                    videoDuration videoUploadDate opts.model opts.language txtContent)
                  st2
                match rmTemp env.removeTemp st3 with
                | (.error m, st4) => (.error m, st4)
                | (.ok _, st4) =>
                  (.ok { success := true,
                         files := { txt := txtOutput, json := jsonOutput, md := mdOutput },
                         metadata := { videoId := videoId, title := videoTitle,
                                       channel := videoChannel, duration := videoDuration,
                                       uploadDate := videoUploadDate, platform := platform,
                                       url := opts.url },
                         transcript := txtContent,
                         transcriptPreview := ⟨txtContent.data.take 500⟩ }, st4)

/-- `transcribeVideo` (lines 283-452): classify and validate the input
before any side effect, create the temporary working directory, run the
body, and on failure run the best-effort `catch` cleanup (its own failure
is ignored) and rethrow the wrapped error. -/
def transcribeVideo (env : PipelineEnv) (opts : TranscriptionOptions)
    (st : FsState) : Except String TranscriptionResult × FsState :=
  let isLocalFile := !isUrl opts.url
  match (if isLocalFile then validateLocalFile env.fileOnDisk env.resolvedPath
         else validateUrl opts.url) with
  | .error e => (.error e, st)
  | .ok _ =>
    let st1 := { st with tempDirExists := true }
    match transcribeBody env opts isLocalFile st1 with
    | (.ok r, st2) => (.ok r, st2)
    | (.error m, st2) =>
      let st3 := (rmTemp env.removeTempRetry st2).2
      (.error ("Transcription failed: " ++ m), st3)

/-- The three artifact `(path, content)` pairs a run with environment `env`
and options `opts` writes when it reaches the artifact-composition phase:
the plain-text and structured engine outputs verbatim, and the annotated
markdown document, under `{identifier}-{sanitized title}.{txt,json,md}` in
the destination directory. -/
def expectedArtifacts (env : PipelineEnv) (opts : TranscriptionOptions)
    (isLocalFile : Bool) : List (String × String) :=
  match acquireSource env opts isLocalFile with
  | .error _ => []
  | .ok (platform, videoId, videoTitle, videoChannel, videoDuration, videoUploadDate) =>
    let safeFilename := videoId ++ "-" ++ sanitizeFilename videoTitle
    let txtContent := match env.readTxt with | .ok t => t | .error _ => ""
    let jsonContent := match env.readJson with | .ok t => t | .error _ => ""
    [(joinPath opts.outputDir (safeFilename ++ ".txt"), txtContent),
     (joinPath opts.outputDir (safeFilename ++ ".json"), jsonContent),
     (joinPath opts.outputDir (safeFilename ++ ".md"),
      mdContent videoTitle opts.url platform videoChannel videoId videoDuration
        videoUploadDate opts.model opts.language txtContent)]

/-! ## A concrete run (the spec's end-to-end scenario)

The download tool reports `{title: "Demo Talk", channel: "Acme",
duration: 125, upload_date: "20230601", id: "xyz"}` for the reference
`https://youtube.com/watch?v=xyz` and the engine produces the text
`hello world`. -/

/-- The mocked metadata of the end-to-end scenario. -/
def demoMeta : RemoteMeta :=
  { id := .str "xyz", title := .str "Demo Talk", channel := .str "Acme",
    duration := .num 125, upload_date := .str "20230601" }

/-- An environment where every external call succeeds with the scenario's
outcomes. -/
def demoEnv : PipelineEnv :=
  { fetchMetadata := .ok demoMeta, readTxt := .ok "hello world",
    readJson := .ok "{}" }

/-- The scenario's request. -/
def demoOpts : TranscriptionOptions :=
  { url := "https://youtube.com/watch?v=xyz", outputDir := "/out" }

/-- The scenario's environment with both `rmSync` call sites failing. -/
def demoEnvRmFail : PipelineEnv :=
  { demoEnv with removeTemp := .error "EBUSY", removeTempRetry := .error "EBUSY" }

/-- The scenario's environment with the structured-artifact write failing. -/
def demoEnvWriteJsonFail : PipelineEnv :=
  { demoEnv with writeJson := .error "ENOSPC" }

/-- An environment whose local reference does not exist on disk. -/
def demoEnvMissingFile : PipelineEnv :=
  { demoEnv with fileOnDisk := false, resolvedPath := "/x/y.mp4" }

/-- A request whose reference is a local path. -/
def demoOptsLocal : TranscriptionOptions :=
  { demoOpts with url := "/x/y.mp4" }

/-- The scenario's environment with the text-output read failing. -/
def demoEnvReadFail : PipelineEnv :=
  { demoEnv with readTxt := .error "ENOENT" }

/-! ## Properties of the filename sanitiser -/

theorem collapseWs_no_ws (l : List Char) : ∀ c ∈ collapseWs l, isJsSpace c = false := by
  induction l using collapseWs.induct with
  | case1 => simp [collapseWs]
  | case2 c h => simp only [collapseWs, if_pos h]; intro x hx; simp at hx; subst hx; decide
  | case3 c h => simp_all [collapseWs]
  | case4 a b rest h ih =>
    simp only [collapseWs, if_pos h]
    exact ih
  | case5 a b rest h ih =>
    simp only [collapseWs, if_neg h]
    intro c hc
    rcases List.mem_cons.mp hc with h1 | h1
    · subst h1
      by_cases ha : isJsSpace a
      · simp only [if_pos ha]; decide
      · simp only [if_neg ha]; simpa using ha
    · exact ih c h1

theorem collapseWs_mem (l : List Char) : ∀ c ∈ collapseWs l, c = '-' ∨ c ∈ l := by
  induction l using collapseWs.induct with
  | case1 => simp [collapseWs]
  | case2 c h => simp [collapseWs, h]
  | case3 c h => simp_all [collapseWs]
  | case4 a b rest h ih =>
    simp only [collapseWs, if_pos h]
    intro c hc
    rcases ih c hc with h1 | h1
    · exact Or.inl h1
    · exact Or.inr (List.mem_cons_of_mem a h1)
  | case5 a b rest h ih =>
    simp only [collapseWs, if_neg h]
    intro c hc
    rcases List.mem_cons.mp hc with h1 | h1
    · by_cases ha : isJsSpace a <;> simp_all
    · rcases ih c h1 with h2 | h2
      · exact Or.inl h2
      · exact Or.inr (List.mem_cons_of_mem a h2)

theorem collapseHyphens_mem (l : List Char) : ∀ c ∈ collapseHyphens l, c ∈ l := by
  induction l using collapseHyphens.induct with
  | case1 => simp [collapseHyphens]
  | case2 c => simp [collapseHyphens]
  | case3 a b rest h ih =>
    simp only [collapseHyphens, if_pos h]
    intro c hc
    exact List.mem_cons_of_mem a (ih c hc)
  | case4 a b rest h ih =>
    simp only [collapseHyphens, if_neg h]
    intro c hc
    rcases List.mem_cons.mp hc with h1 | h1
    · exact h1 ▸ List.mem_cons_self a _
    · exact List.mem_cons_of_mem a (ih c h1)

theorem collapseHyphens_cons (x : Char) (xs : List Char) :
    ∃ t, collapseHyphens (x :: xs) = x :: t := by
  induction xs generalizing x with
  | nil => exact ⟨[], rfl⟩
  | cons b rest ih =>
    by_cases h : (x == '-' && b == '-') = true
    · have hx : x = '-' := by simp_all
      have hb : b = '-' := by simp_all
      subst hx; subst hb
      obtain ⟨t, ht⟩ := ih '-'
      exact ⟨t, by simp only [collapseHyphens, if_pos h, ht]⟩
    · exact ⟨collapseHyphens (b :: rest), by simp only [collapseHyphens, if_neg h]⟩

theorem collapseHyphens_noDouble (l : List Char) :
    noDoubleHyphen (collapseHyphens l) = true := by
  induction l using collapseHyphens.induct with
  | case1 => simp [collapseHyphens, noDoubleHyphen]
  | case2 c => simp [collapseHyphens, noDoubleHyphen]
  | case3 a b rest h ih => simp only [collapseHyphens, if_pos h]; exact ih
  | case4 a b rest h ih =>
    simp only [collapseHyphens, if_neg h]
    obtain ⟨t, ht⟩ := collapseHyphens_cons b rest
    rw [ht]
    rw [ht] at ih
    simp only [noDoubleHyphen, Bool.and_eq_true]
    refine ⟨?_, ih⟩
    by_cases ha : a = '-' <;> by_cases hb : b = '-' <;> simp_all



theorem noDoubleHyphen_tail {a : Char} {t : List Char}
    (h : noDoubleHyphen (a :: t) = true) : noDoubleHyphen t = true := by
  cases t with
  | nil => rfl
  | cons b r => simp only [noDoubleHyphen, Bool.and_eq_true] at h; exact h.2

theorem noDoubleHyphen_suffix (p q : List Char)
    (h : noDoubleHyphen (p ++ q) = true) : noDoubleHyphen q = true := by
  induction p with
  | nil => exact h
  | cons a p' ih => exact ih (noDoubleHyphen_tail h)

theorem noDoubleHyphen_prefix (p q : List Char)
    (h : noDoubleHyphen (p ++ q) = true) : noDoubleHyphen p = true := by
  induction p with
  | nil => rfl
  | cons a p' ih =>
    cases p' with
    | nil => rfl
    | cons b p'' =>
      simp only [List.cons_append, noDoubleHyphen, Bool.and_eq_true] at h ⊢
      exact ⟨h.1, ih h.2⟩

theorem dropWhile_head_not {p : Char → Bool} {l : List Char} {a : Char}
    (h : (l.dropWhile p).head? = some a) : p a = false := by
  induction l with
  | nil => simp [List.dropWhile] at h
  | cons c t ih =>
    by_cases hc : p c
    · rw [List.dropWhile_cons_of_pos hc] at h
      exact ih h
    · rw [List.dropWhile_cons_of_neg hc] at h
      simp at h
      subst h
      simpa using hc

theorem dropWhile_eq_self_of_head {p : Char → Bool} {l : List Char}
    (h : ∀ a, l.head? = some a → p a = false) : l.dropWhile p = l := by
  cases l with
  | nil => rfl
  | cons c t => rw [List.dropWhile_cons_of_neg (by simp [h c rfl])]

theorem trimHyphens_head {l : List Char} {a : Char}
    (h : (trimHyphens l).head? = some a) : a ≠ '-' := by
  unfold trimHyphens at h
  set m1 := l.dropWhile (fun c => c == '-') with hm1
  set m2 := m1.reverse.dropWhile (fun c => c == '-') with hm2
  have hsplit : m1.reverse = m1.reverse.takeWhile (fun c => c == '-') ++ m2 :=
    (List.takeWhile_append_dropWhile (fun c => c == '-') m1.reverse).symm
  have : m2.reverse.head? = some a := h
  have hpre : m1 = m2.reverse ++ (m1.reverse.takeWhile (fun c => c == '-')).reverse := by
    have := congrArg List.reverse hsplit
    simpa [List.reverse_append] using this
  -- head of m1 is head of m2.reverse (m2.reverse nonempty because head? = some a)
  have hm1head : m1.head? = some a := by
    rw [hpre]
    cases hrev : m2.reverse with
    | nil => rw [hrev] at this; simp at this
    | cons x xs =>
      rw [hrev] at this
      simp at this
      simp [hrev, this]
  have := dropWhile_head_not (hm1 ▸ hm1head)
  simpa using this

theorem trimHyphens_getLast {l : List Char} {a : Char}
    (h : (trimHyphens l).getLast? = some a) : a ≠ '-' := by
  unfold trimHyphens at h
  rw [List.getLast?_reverse] at h
  have := dropWhile_head_not h
  simpa using this

theorem trimHyphens_eq_self {l : List Char}
    (h1 : ∀ a, l.head? = some a → a ≠ '-')
    (h2 : ∀ a, l.getLast? = some a → a ≠ '-') : trimHyphens l = l := by
  unfold trimHyphens
  have hinner : l.dropWhile (fun c => c == '-') = l :=
    dropWhile_eq_self_of_head (fun a ha => by simpa using h1 a ha)
  rw [hinner]
  have houter : l.reverse.dropWhile (fun c => c == '-') = l.reverse :=
    dropWhile_eq_self_of_head (fun a ha => by
      rw [List.head?_reverse] at ha
      simpa using h2 a ha)
  rw [houter, List.reverse_reverse]

theorem collapseWs_eq_self {l : List Char}
    (h : ∀ c ∈ l, isJsSpace c = false) : collapseWs l = l := by
  induction l using collapseWs.induct with
  | case1 => rfl
  | case2 c hc => simp_all
  | case3 c hc => simp [collapseWs, hc]
  | case4 a b rest hab ih =>
    have : isJsSpace a = false := h a (by simp)
    simp_all
  | case5 a b rest hab ih =>
    have ha : isJsSpace a = false := h a (by simp)
    have hrest := ih (fun c hc => h c (List.mem_cons_of_mem a hc))
    simp [collapseWs, hab, ha, hrest]

theorem collapseHyphens_eq_self {l : List Char}
    (h : noDoubleHyphen l = true) : collapseHyphens l = l := by
  induction l using collapseHyphens.induct with
  | case1 => rfl
  | case2 c => rfl
  | case3 a b rest hab ih =>
    simp only [noDoubleHyphen, Bool.and_eq_true] at h
    simp_all
  | case4 a b rest hab ih =>
    simp only [collapseHyphens, if_neg hab]
    rw [ih (noDoubleHyphen_tail h)]

theorem noDoubleHyphen_take (l : List Char) (n : Nat)
    (h : noDoubleHyphen l = true) : noDoubleHyphen (l.take n) = true :=
  noDoubleHyphen_prefix _ _ (by rw [List.take_append_drop]; exact h)

theorem head?_take_succ (l : List Char) (n : Nat) :
    (l.take (n + 1)).head? = l.head? := by
  cases l <;> simp



theorem trimHyphens_subset (l : List Char) : trimHyphens l ⊆ l := by
  unfold trimHyphens
  intro c hc
  rw [List.mem_reverse] at hc
  have h1 := (List.dropWhile_suffix (fun c => c == '-')).subset hc
  rw [List.mem_reverse] at h1
  exact (List.dropWhile_suffix (fun c => c == '-')).subset h1

theorem noDoubleHyphen_trim (l : List Char) (h : noDoubleHyphen l = true) :
    noDoubleHyphen (trimHyphens l) = true := by
  unfold trimHyphens
  set m1 := l.dropWhile (fun c => c == '-') with hm1
  set m2 := m1.reverse.dropWhile (fun c => c == '-') with hm2
  have hnd1 : noDoubleHyphen m1 = true := by
    have hsplit : l.takeWhile (fun c => c == '-') ++ m1 = l :=
      List.takeWhile_append_dropWhile (fun c => c == '-') l
    exact noDoubleHyphen_suffix _ _ (hsplit ▸ h)
  have hpre : m1 = m2.reverse ++ (m1.reverse.takeWhile (fun c => c == '-')).reverse := by
    have hsplit : m1.reverse.takeWhile (fun c => c == '-') ++ m2 = m1.reverse :=
      List.takeWhile_append_dropWhile (fun c => c == '-') m1.reverse
    have := congrArg List.reverse hsplit
    simpa [List.reverse_append] using this.symm
  exact noDoubleHyphen_prefix _ _ (hpre ▸ hnd1)

theorem head?_take_some {l : List Char} {n : Nat} {a : Char}
    (h : (l.take n).head? = some a) : l.head? = some a := by
  cases n <;> cases l <;> simp_all

theorem sanitizeList_length (l : List Char) : (sanitizeList l).length ≤ 150 := by
  unfold sanitizeList
  exact List.length_take_le 150 _

theorem sanitizeList_no_illegal (l : List Char) :
    ∀ c ∈ sanitizeList l, isIllegalFsChar c = false := by
  intro c hc
  unfold sanitizeList at hc
  have h1 := trimHyphens_subset _ (List.take_subset _ _ hc)
  have h2 := collapseHyphens_mem _ c h1
  rcases collapseWs_mem _ c h2 with h3 | h3
  · subst h3; decide
  · simpa using (List.mem_filter.mp h3).2

theorem sanitizeList_no_ws (l : List Char) :
    ∀ c ∈ sanitizeList l, isJsSpace c = false := by
  intro c hc
  unfold sanitizeList at hc
  have h1 := trimHyphens_subset _ (List.take_subset _ _ hc)
  have h2 := collapseHyphens_mem _ c h1
  exact collapseWs_no_ws _ c h2

theorem sanitizeList_noDouble (l : List Char) :
    noDoubleHyphen (sanitizeList l) = true := by
  unfold sanitizeList
  exact noDoubleHyphen_take _ _ (noDoubleHyphen_trim _ (collapseHyphens_noDouble _))

theorem sanitizeList_head (l : List Char) {a : Char}
    (h : (sanitizeList l).head? = some a) : a ≠ '-' := by
  unfold sanitizeList at h
  exact trimHyphens_head (head?_take_some h)

theorem sanitizeList_idem (l : List Char) (h : (sanitizeList l).getLast? ≠ some '-') :
    sanitizeList (sanitizeList l) = sanitizeList l := by
  have hfil : (sanitizeList l).filter (fun c => !isIllegalFsChar c) = sanitizeList l :=
    List.filter_eq_self.mpr (fun a ha => by simp [sanitizeList_no_illegal l a ha])
  have hws : collapseWs (sanitizeList l) = sanitizeList l :=
    collapseWs_eq_self (fun c hc => sanitizeList_no_ws l c hc)
  have hhy : collapseHyphens (sanitizeList l) = sanitizeList l :=
    collapseHyphens_eq_self (sanitizeList_noDouble l)
  have htr : trimHyphens (sanitizeList l) = sanitizeList l :=
    trimHyphens_eq_self (fun a ha => sanitizeList_head l ha)
      (fun a ha he => h (he ▸ ha))
  have htk : (sanitizeList l).take 150 = sanitizeList l :=
    List.take_of_length_le (sanitizeList_length l)
  show (trimHyphens (collapseHyphens (collapseWs
    ((sanitizeList l).filter (fun c => !isIllegalFsChar c))))).take 150 = sanitizeList l
  rw [hfil, hws, hhy, htr, htk]

/-! ## Properties of the resilient executor -/

theorem execRetryLoop_all_fail (oc : Nat → Except String String) (mr : Nat)
    (m : String) (hm : isNetworkError m = true) (hoc : ∀ a, oc a = .error m) :
    ∀ n k, k + n = mr + 1 → 1 ≤ n →
      execRetryLoop oc mr (List.range' k n) =
        (.error m, (List.range' k (n - 1)).map backoffDelay) := by
  intro n
  induction n with
  | zero => omega
  | succ n' ih =>
    intro k hk _
    rw [List.range'_succ]
    simp only [execRetryLoop, hoc k, hm]
    by_cases hlast : n' = 0
    · subst hlast
      have : k = mr := by omega
      simp [this]
    · have hkm : (k == mr) = false := by
        simp only [beq_eq_false_iff_ne, ne_eq]
        omega
      have hone : 1 ≤ n' := Nat.one_le_iff_ne_zero.mpr hlast
      simp only [Bool.not_true, Bool.false_or, hkm, if_false]
      rw [ih (k + 1) (by omega) hone]
      have hr : List.range' k (n' + 1 - 1) = k :: List.range' (k + 1) (n' - 1) := by
        have h2 : n' + 1 - 1 = (n' - 1) + 1 := by omega
        rw [h2, List.range'_succ]
      rw [hr]
      simp

/-! ## Properties of the orchestrator -/

theorem rmTemp_destFiles (o : Except String Unit) (st : FsState) :
    (rmTemp o st).2.destFiles = st.destFiles := by
  unfold rmTemp
  by_cases h : st.tempDirExists = true
  · rw [if_pos h]; cases o <;> rfl
  · rw [if_neg h]

theorem rmTemp_ok_state {o : Except String Unit} {st st' : FsState}
    (h : (rmTemp o st) = (.ok (), st')) : st'.tempDirExists = false := by
  unfold rmTemp at h
  by_cases ht : st.tempDirExists = true
  · rw [if_pos ht] at h
    cases o with
    | ok u => cases h.symm; rfl
    | error e => simp at h
  · rw [if_neg ht] at h
    cases h.symm
    simpa using ht

theorem rmTemp_error_state {o : Except String Unit} {st st' : FsState} {m : String}
    (h : (rmTemp o st) = (.error m, st')) : st' = st := by
  unfold rmTemp at h
  by_cases ht : st.tempDirExists = true
  · rw [if_pos ht] at h
    cases o with
    | ok u => simp at h
    | error e => cases h.symm; rfl
  · rw [if_neg ht] at h
    simp at h

theorem transcribeBody_temp (env : PipelineEnv) (opts : TranscriptionOptions)
    (il : Bool) (st : FsState) :
    ((∃ m, (transcribeBody env opts il st).1 = .error m) ∧
      (transcribeBody env opts il st).2.tempDirExists = st.tempDirExists) ∨
    ((∃ r, (transcribeBody env opts il st).1 = .ok r) ∧
      (transcribeBody env opts il st).2.tempDirExists = false) := by
  unfold transcribeBody
  rcases hacq : acquireSource env opts il with m | ⟨p, vid, vt, vc, vd, vu⟩
  · exact Or.inl ⟨⟨m, rfl⟩, rfl⟩
  · rcases hw : env.runWhisper with m | u
    · exact Or.inl ⟨⟨m, rfl⟩, rfl⟩
    · rcases ht : env.readTxt with m | txt
      · exact Or.inl ⟨⟨m, rfl⟩, rfl⟩
      · rcases hj : env.readJson with m | jsn
        · exact Or.inl ⟨⟨m, rfl⟩, rfl⟩
        · rcases hwt : env.writeTxt with m | u
          · exact Or.inl ⟨⟨m, rfl⟩, rfl⟩
          · rcases hwj : env.writeJson with m | u
            · exact Or.inl ⟨⟨m, rfl⟩, rfl⟩
            · rcases hwm : env.writeMd with m | u
              · exact Or.inl ⟨⟨m, rfl⟩, rfl⟩
              · dsimp only
                split
                next m st4 hrm =>
                  refine Or.inl ⟨⟨m, rfl⟩, ?_⟩
                  rw [rmTemp_error_state hrm]
                  rfl
                next u st4 hrm =>
                  exact Or.inr ⟨⟨_, rfl⟩, rmTemp_ok_state hrm⟩

theorem transcribeBody_dest (env : PipelineEnv) (opts : TranscriptionOptions)
    (il : Bool) (st : FsState) :
    ∃ extra,
      (transcribeBody env opts il st).2.destFiles = st.destFiles ++ extra ∧
      extra <+: expectedArtifacts env opts il ∧
      (∀ r, (transcribeBody env opts il st).1 = .ok r →
        extra = expectedArtifacts env opts il ∧
        env.readTxt = .ok r.transcript ∧
        (∃ jsonC pre post, env.readJson = .ok jsonC ∧
          expectedArtifacts env opts il =
            [(r.files.txt, r.transcript), (r.files.json, jsonC),
             (r.files.md, pre ++ r.transcript ++ post)])) := by
  unfold transcribeBody
  rcases hacq : acquireSource env opts il with m | ⟨p, vid, vt, vc, vd, vu⟩
  · exact ⟨[], by simp, List.nil_prefix, fun r h => nomatch h⟩
  · rcases hw : env.runWhisper with m | u
    · exact ⟨[], by simp, List.nil_prefix, fun r h => nomatch h⟩
    · rcases ht : env.readTxt with m | txt
      · exact ⟨[], by simp, List.nil_prefix, fun r h => nomatch h⟩
      · rcases hj : env.readJson with m | jsn
        · exact ⟨[], by simp, List.nil_prefix, fun r h => nomatch h⟩
        · have hart : expectedArtifacts env opts il =
              [(joinPath opts.outputDir (vid ++ "-" ++ sanitizeFilename vt ++ ".txt"), txt),
               (joinPath opts.outputDir (vid ++ "-" ++ sanitizeFilename vt ++ ".json"), jsn),
               (joinPath opts.outputDir (vid ++ "-" ++ sanitizeFilename vt ++ ".md"),
                mdContent vt opts.url p vc vid vd vu opts.model opts.language txt)] := by
            simp only [expectedArtifacts, hacq, ht, hj]
          rcases hwt : env.writeTxt with m | u
          · exact ⟨[], by simp, List.nil_prefix, fun r h => nomatch h⟩
          · rcases hwj : env.writeJson with m | u
            · refine ⟨[(joinPath opts.outputDir (vid ++ "-" ++ sanitizeFilename vt ++ ".txt"), txt)],
                rfl, ?_, fun r h => nomatch h⟩
              rw [hart]
              exact ⟨_, rfl⟩
            · rcases hwm : env.writeMd with m | u
              · refine ⟨[(joinPath opts.outputDir (vid ++ "-" ++ sanitizeFilename vt ++ ".txt"), txt),
                  (joinPath opts.outputDir (vid ++ "-" ++ sanitizeFilename vt ++ ".json"), jsn)],
                  ?_, ?_, fun r h => nomatch h⟩
                · simp [writeDest]
                · rw [hart]
                  exact ⟨_, rfl⟩
              · dsimp only
                split
                next m st4 hrm =>
                  refine ⟨[(joinPath opts.outputDir (vid ++ "-" ++ sanitizeFilename vt ++ ".txt"), txt),
                    (joinPath opts.outputDir (vid ++ "-" ++ sanitizeFilename vt ++ ".json"), jsn),
                    (joinPath opts.outputDir (vid ++ "-" ++ sanitizeFilename vt ++ ".md"),
                     mdContent vt opts.url p vc vid vd vu opts.model opts.language txt)],
                    ?_, ?_, fun r h => nomatch h⟩
                  · rw [rmTemp_error_state hrm]
                    simp [writeDest]
                  · rw [hart]
                next u st4 hrm =>
                  refine ⟨[(joinPath opts.outputDir (vid ++ "-" ++ sanitizeFilename vt ++ ".txt"), txt),
                    (joinPath opts.outputDir (vid ++ "-" ++ sanitizeFilename vt ++ ".json"), jsn),
                    (joinPath opts.outputDir (vid ++ "-" ++ sanitizeFilename vt ++ ".md"),
                     mdContent vt opts.url p vc vid vd vu opts.model opts.language txt)],
                    ?_, ?_, ?_⟩
                  · have hd : st4.destFiles =
                        (writeDest (joinPath opts.outputDir (vid ++ "-" ++ sanitizeFilename vt ++ ".md"))
                          (mdContent vt opts.url p vc vid vd vu opts.model opts.language txt)
                          (writeDest (joinPath opts.outputDir (vid ++ "-" ++ sanitizeFilename vt ++ ".json")) jsn
                            (writeDest (joinPath opts.outputDir (vid ++ "-" ++ sanitizeFilename vt ++ ".txt")) txt st))).destFiles := by
                      have := rmTemp_destFiles env.removeTemp
                        (writeDest (joinPath opts.outputDir (vid ++ "-" ++ sanitizeFilename vt ++ ".md"))
                          (mdContent vt opts.url p vc vid vd vu opts.model opts.language txt)
                          (writeDest (joinPath opts.outputDir (vid ++ "-" ++ sanitizeFilename vt ++ ".json")) jsn
                            (writeDest (joinPath opts.outputDir (vid ++ "-" ++ sanitizeFilename vt ++ ".txt")) txt st)))
                      rw [hrm] at this
                      exact this
                    dsimp only
                    rw [hd]
                    simp [writeDest]
                  · rw [hart]
                  · intro r h
                    have h2 : Except.ok (ε := String)
                        { success := true,
                          files :=
                            { txt := joinPath opts.outputDir (vid ++ "-" ++ sanitizeFilename vt ++ ".txt"),
                              json := joinPath opts.outputDir (vid ++ "-" ++ sanitizeFilename vt ++ ".json"),
                              md := joinPath opts.outputDir (vid ++ "-" ++ sanitizeFilename vt ++ ".md") },
                          metadata :=
                            { videoId := vid, title := vt, channel := vc, duration := vd,
                              uploadDate := vu, platform := p, url := opts.url },
                          transcript := txt,
                          transcriptPreview := ⟨txt.data.take 500⟩ } = Except.ok r := h
                    obtain rfl := Except.ok.inj h2
                    refine ⟨hart.symm, rfl, jsn,
                      mdPre vt opts.url p vc vid vd vu, mdPost opts.model opts.language, rfl, ?_⟩
                    rw [hart]
                    rfl

theorem transcribeBody_read_failure (env : PipelineEnv) (opts : TranscriptionOptions)
    (il : Bool) (st : FsState)
    (h : (∃ e, env.readTxt = .error e) ∨ (∃ e, env.readJson = .error e)) :
    (transcribeBody env opts il st).2.destFiles = st.destFiles := by
  unfold transcribeBody
  rcases hacq : acquireSource env opts il with m | ⟨p, vid, vt, vc, vd, vu⟩
  · rfl
  · rcases hw : env.runWhisper with m | u
    · rfl
    · rcases ht : env.readTxt with m | txt
      · rfl
      · rcases hj : env.readJson with m | jsn
        · rfl
        · exfalso
          rcases h with ⟨e, he⟩ | ⟨e, he⟩
          · rw [ht] at he; exact nomatch he
          · rw [hj] at he; exact nomatch he

theorem transcribeBody_retry_irrel (env : PipelineEnv) (o : Except String Unit)
    (opts : TranscriptionOptions) (il : Bool) (st : FsState) :
    transcribeBody { env with removeTempRetry := o } opts il st =
      transcribeBody env opts il st := rfl

theorem transcribeVideo_retry_irrel (env : PipelineEnv) (o : Except String Unit)
    (opts : TranscriptionOptions) (st : FsState) :
    (transcribeVideo { env with removeTempRetry := o } opts st).1 =
      (transcribeVideo env opts st).1 := by
  unfold transcribeVideo
  dsimp only
  rw [transcribeBody_retry_irrel]
  generalize (if (!isUrl opts.url) = true then validateLocalFile env.fileOnDisk env.resolvedPath
             else validateUrl opts.url) = v
  cases v with
  | error e => rfl
  | ok u =>
    generalize transcribeBody env opts (!isUrl opts.url)
      { tempDirExists := true, destFiles := st.destFiles } = out
    obtain ⟨r, st2⟩ := out
    cases r <;> rfl

/-! ## The claims -/

/-- C3 (amended): for every input, `sanitizeFilename`'s output never
exceeds 150 characters and never contains a path separator or a control
character; sanitising an already-sanitised string yields the same string
whenever the sanitised output does not end in a hyphen (the 150-character
truncation, applied after hyphen-trimming, can expose a trailing hyphen
that a second pass would trim). -/
theorem claim3_sanitizer (s : String) :
    ((sanitizeFilename s).data.getLast? ≠ some '-' →
      sanitizeFilename (sanitizeFilename s) = sanitizeFilename s) ∧
    (sanitizeFilename s).length ≤ 150 ∧
    (∀ c ∈ (sanitizeFilename s).data, ¬(c = '/' ∨ c = '\\' ∨ c.toNat ≤ 0x1F)) := by
  refine ⟨?_, ?_, ?_⟩
  · intro h
    show (⟨sanitizeList (sanitizeList s.data)⟩ : String) = ⟨sanitizeList s.data⟩
    exact congrArg String.mk (sanitizeList_idem s.data h)
  · exact sanitizeList_length s.data
  · intro c hc
    have hno := sanitizeList_no_illegal s.data c hc
    rintro (rfl | rfl | hn)
    · exact (by decide : isIllegalFsChar '/' ≠ false) hno
    · exact (by decide : isIllegalFsChar '\\' ≠ false) hno
    · have ht : isIllegalFsChar c = true := by
        unfold isIllegalFsChar
        rw [decide_eq_true hn]
        simp
      rw [hno] at ht
      exact Bool.false_ne_true ht

/-- C3 witness: a typical title, where sanitising is idempotent. -/
theorem claim3_sanitizer_witness :
    sanitizeFilename (sanitizeFilename "Demo Talk: Part 1/2") =
      sanitizeFilename "Demo Talk: Part 1/2" :=
  (claim3_sanitizer "Demo Talk: Part 1/2").1 (by decide)

/-- C3 counterexample: a 151-character title whose sanitised form is 149
a's followed by `-b`; truncation to 150 ends the output with a hyphen, so
a second sanitisation trims it and yields a different (149-character)
string — the sanitiser is not idempotent as claimed. -/
theorem claim3_sanitizer_counterexample :
    sanitizeFilename (sanitizeFilename (String.mk (List.replicate 149 'a' ++ ['-', 'b'])))
      ≠ sanitizeFilename (String.mk (List.replicate 149 'a' ++ ['-', 'b'])) := by decide

/-- C5: a failure whose lowercased message contains one of the five
transient-network indicators is retried while attempts remain (when every
attempt fails this way, all `maxRetries` attempts run, then the error
propagates); a failure containing none of them — such as one containing
`permission denied` — propagates on the first attempt with no retry. -/
theorem claim5_retry_gating (oc : Nat → Except String String) (mr : Nat) (m : String) :
    (isNetworkError m =
      (hasSubstr (toLowerStr m) "network" || hasSubstr (toLowerStr m) "connection" ||
       hasSubstr (toLowerStr m) "timeout" || hasSubstr (toLowerStr m) "unreachable" ||
       hasSubstr (toLowerStr m) "temporary failure")) ∧
    (oc 1 = .error m → isNetworkError m = false → 1 ≤ mr →
      execWithRetry oc mr = (.error m, [])) ∧
    ((∀ a, oc a = .error m) → isNetworkError m = true → 1 ≤ mr →
      execWithRetry oc mr = (.error m, (List.range' 1 (mr - 1)).map backoffDelay)) ∧
    isNetworkError "Command failed: connect timeout" = true ∧
    isNetworkError "Command failed: permission denied" = false := by
  refine ⟨rfl, ?_, ?_, by decide, by decide⟩
  · intro h1 h2 h3
    unfold execWithRetry
    obtain ⟨n', hn⟩ : ∃ n', mr = n' + 1 := ⟨mr - 1, by omega⟩
    subst hn
    rw [List.range'_succ]
    simp [execRetryLoop, h1, h2]
  · intro h1 h2 h3
    exact execRetryLoop_all_fail oc mr m h2 h1 mr 1 (by omega) h3

/-- C5 witness: a `permission denied` failure with the default maximum of
3 attempts fails immediately, sleeping no backoff delay. -/
theorem claim5_retry_gating_witness :
    execWithRetry (fun _ => .error "Command failed: permission denied") 3 =
      (.error "Command failed: permission denied", []) :=
  (claim5_retry_gating (fun _ => .error "Command failed: permission denied") 3
    "Command failed: permission denied").2.1 rfl (by decide) (by decide)

/-- C6: for every attempt number `n ≥ 1` the backoff delay slept before
the next attempt is `min(1000 * 2^(n-1), 10000)` milliseconds; for
attempts 1..5 this gives 1000, 2000, 4000, 8000, 10000, and the retry
loop sleeps exactly this delay after a retried attempt `n`. -/
theorem claim6_backoff_schedule (n : Nat) (h : 1 ≤ n) :
    backoffDelay n = min (1000 * 2 ^ (n - 1)) 10000 ∧
    (List.range' 1 5).map backoffDelay = [1000, 2000, 4000, 8000, 10000] ∧
    (∀ oc mr rest m, oc n = .error m → isNetworkError m = true → (n == mr) = false →
      execRetryLoop oc mr (n :: rest) =
        ((execRetryLoop oc mr rest).1, backoffDelay n :: (execRetryLoop oc mr rest).2)) := by
  refine ⟨rfl, by decide, ?_⟩
  intro oc mr rest m ho hm hne
  simp only [execRetryLoop, ho, hm, hne, Bool.not_true, Bool.false_or]
  rw [if_neg (by simp)]

/-- C6 witness: the delay after attempt 1 is 1000 ms. -/
theorem claim6_backoff_schedule_witness :
    backoffDelay 1 = min (1000 * 2 ^ (1 - 1)) 10000 :=
  (claim6_backoff_schedule 1 (by decide)).1

/-- C8: an 8-character `YYYYMMDD` string is reformatted to `YYYY-MM-DD`
by inserting hyphens, and every input whose length is not 8 (including
the empty string) is returned unchanged. -/
theorem claim8_date_formatting (s : String) :
    (s.length = 8 → formatDate s =
      (⟨s.data.take 4⟩ : String) ++ "-" ++ (⟨(s.data.drop 4).take 2⟩ : String) ++
        "-" ++ (⟨(s.data.drop 6).take 2⟩ : String)) ∧
    (¬s.length = 8 → formatDate s = s) ∧
    formatDate "20240115" = "2024-01-15" ∧
    formatDate "" = "" ∧
    formatDate "2024115" = "2024115" := by
  refine ⟨?_, ?_, by decide, by decide, by decide⟩
  · intro h
    have hne : (s == "") = false := by
      cases hb : s == ""
      · rfl
      · exfalso
        have : s = "" := eq_of_beq hb
        subst this
        simp at h
    have hlen : (s.length == 8) = true := beq_iff_eq.mpr h
    simp [formatDate, hne, hlen]
  · intro h
    have hlen : (s.length == 8) = false := by
      simpa using h
    simp [formatDate, hlen]

/-- C4: classification returns exactly one of REMOTE or LOCAL — REMOTE
precisely when the string parses as an absolute URL with an `http` or
`https` scheme; a REMOTE string always re-validates successfully (so the
invalid-reference failure is unreachable for classified-REMOTE strings);
a LOCAL reference whose resolved path is absent fails with the
file-not-found error, and one whose extension (case-insensitively) is
outside the fixed allow-list fails with the unsupported-format error. -/
theorem claim4_classifier (s p : String) :
    (classifyInput s = .remote ↔ isUrl s = true) ∧
    ((classifyInput s = .remote ∨ classifyInput s = .localFile) ∧
      ¬(classifyInput s = .remote ∧ classifyInput s = .localFile)) ∧
    (isUrl s = true ↔ ∃ protocol, parseURL s = some protocol ∧
      (protocol = "http:" ∨ protocol = "https:")) ∧
    (isUrl s = true → validateUrl s = .ok ()) ∧
    validateLocalFile false p = .error ("File not found: " ++ p) ∧
    validateLocalFile true p =
      (if videoExtensions.contains (toLowerStr (extnameOf p)) then .ok ()
       else .error ("Unsupported file format: " ++ toLowerStr (extnameOf p) ++
         ". Expected video file.")) ∧
    classifyInput "https://youtube.com/watch?v=abc123" = .remote := by
  refine ⟨?_, ?_, ?_, ?_, rfl, ?_, by decide⟩
  · unfold classifyInput
    by_cases h : isUrl s = true <;> simp [h]
  · unfold classifyInput
    by_cases h : isUrl s = true <;> simp [h]
  · unfold isUrl
    cases hp : parseURL s with
    | none => simp
    | some protocol =>
      simp only [Option.some.injEq]
      constructor
      · intro h
        rcases Bool.or_eq_true_iff.mp h with h1 | h1
        · exact ⟨protocol, rfl, Or.inl (eq_of_beq h1)⟩
        · exact ⟨protocol, rfl, Or.inr (eq_of_beq h1)⟩
      · rintro ⟨q, rfl, (rfl | rfl)⟩ <;> decide
  · intro h
    unfold isUrl at h
    unfold validateUrl
    cases hp : parseURL s with
    | none => rw [hp] at h; exact nomatch h
    | some protocol => rfl
  · unfold validateLocalFile
    by_cases hc : videoExtensions.contains (toLowerStr (extnameOf p)) = true
    · simp [hc]
    · simp [hc]

/-- C7: identifier extraction tries, in order, the `v=` query-parameter
pattern, the `youtu.be/` path-segment pattern, the truthy tool-reported
`id` field, and finally the deterministic fallback of base64-encoding the
reference and taking the first 11 characters made URL-safe; on
`https://youtube.com/watch?v=abc123` it yields `abc123`. -/
theorem claim7_video_id_extraction (url : String) (metadata : RemoteMeta) :
    (∀ cap, vParamMatch url.data = some cap → extractVideoId url metadata = ⟨cap⟩) ∧
    (vParamMatch url.data = none → ∀ cap, ytShortMatch url.data = some cap →
      extractVideoId url metadata = ⟨cap⟩) ∧
    (vParamMatch url.data = none → ytShortMatch url.data = none →
      ∀ s, metadata.id = .str s → ¬s = "" → extractVideoId url metadata = s) ∧
    (vParamMatch url.data = none → ytShortMatch url.data = none →
      metadata.id.truthy = false → extractVideoId url metadata = urlHashId url) ∧
    urlHashId url = ⟨((base64Encode (url.data.flatMap utf8Bytes)).take 11).map
      (fun c => if c == '+' then '-' else if c == '/' then '_' else c)⟩ ∧
    extractVideoId "https://youtube.com/watch?v=abc123" metadata = "abc123" := by
  refine ⟨?_, ?_, ?_, ?_, rfl, ?_⟩
  · intro cap h
    unfold extractVideoId
    rw [h]
  · intro h1 cap h2
    unfold extractVideoId
    rw [h1, h2]
  · intro h1 h2 s hs hne
    unfold extractVideoId
    rw [h1, h2, hs]
    have ht : (JStr.str s).truthy = true := by
      simp [JStr.truthy, hne]
    rw [if_pos ht]
    simp [JStr.orDefault, hne]
  · intro h1 h2 h3
    unfold extractVideoId
    rw [h1, h2, if_neg (by simp [h3])]
  · unfold extractVideoId
    rw [show vParamMatch ("https://youtube.com/watch?v=abc123").data =
      some ("abc123").data from by decide]

/-- C10: a present-but-falsy metadata field is treated the same as an
absent one — an empty-string title or channel becomes `Unknown`, a zero
or absent duration becomes 0, a falsy upload date becomes the empty
string — and the remote branch of the pipeline applies exactly these
truthiness defaults. -/
theorem claim10_falsy_metadata_defaults (m : RemoteMeta) (d : String) (e : Int)
    (s : String) (env : PipelineEnv) (opts : TranscriptionOptions) :
    JStr.orDefault (.str "") d = d ∧
    JStr.orDefault .undef d = d ∧
    (¬s = "" → JStr.orDefault (.str s) d = s) ∧
    JNum.orDefault (.num 0) e = e ∧
    JNum.orDefault .undef e = e ∧
    (∀ n : Int, ¬n = 0 → JNum.orDefault (.num n) e = n) ∧
    (env.fetchMetadata = .ok m → env.downloadAudio = .ok () →
      acquireSource env opts false =
        .ok (detectPlatform opts.url m, extractVideoId opts.url m,
             m.title.orDefault "Unknown", m.channel.orDefault "Unknown",
             m.duration.orDefault 0, m.upload_date.orDefault "")) := by
  refine ⟨rfl, rfl, ?_, rfl, rfl, ?_, ?_⟩
  · intro h
    simp [JStr.orDefault, h]
  · intro n h
    simp [JNum.orDefault, h]
  · intro h1 h2
    unfold acquireSource
    rw [if_neg (by simp)]
    rw [h1, h2]

/-- C9: when the reference fails input validation, `transcribeVideo`
throws the validation error itself (unwrapped) before any side effect:
no temporary working directory is created and no file is written to the
destination directory — the filesystem state is returned unchanged. -/
theorem claim9_validation_before_side_effects (env : PipelineEnv)
    (opts : TranscriptionOptions) (st : FsState) (msg : String)
    (h1 : isUrl opts.url = false)
    (h2 : validateLocalFile env.fileOnDisk env.resolvedPath = .error msg) :
    transcribeVideo env opts st = (.error msg, st) := by
  unfold transcribeVideo
  simp [h1, h2]

/-- C9 witness: a missing local file fails with `File not found` and the
filesystem state is untouched. -/
theorem claim9_validation_before_side_effects_witness :
    transcribeVideo demoEnvMissingFile demoOptsLocal {} =
      (.error "File not found: /x/y.mp4", {}) :=
  claim9_validation_before_side_effects demoEnvMissingFile demoOptsLocal {}
    "File not found: /x/y.mp4" (by decide) (by decide)

/-- C1 (amended): when both `rmSync` call sites succeed, the temporary
working directory does not exist after the call returns, on the success
path and on every failure path; and the outcome of the `catch` block's
cleanup is always swallowed — the call's result does not depend on it, so
it never masks the original error.  (The success-path `rmSync` is *not*
protected: see the counterexample.) -/
theorem claim1_cleanup (env : PipelineEnv) (opts : TranscriptionOptions)
    (st : FsState)
    (h1 : env.removeTemp = .ok ()) (h2 : env.removeTempRetry = .ok ())
    (h3 : st.tempDirExists = false) :
    (transcribeVideo env opts st).2.tempDirExists = false ∧
    (∀ o1 o2 : Except String Unit,
      (transcribeVideo { env with removeTempRetry := o1 } opts st).1 =
        (transcribeVideo { env with removeTempRetry := o2 } opts st).1) := by
  constructor
  · unfold transcribeVideo
    dsimp only
    generalize (if (!isUrl opts.url) = true then validateLocalFile env.fileOnDisk env.resolvedPath
               else validateUrl opts.url) = v
    cases v with
    | error e => exact h3
    | ok u =>
      have hd := transcribeBody_temp env opts (!isUrl opts.url)
        { tempDirExists := true, destFiles := st.destFiles }
      generalize hout : transcribeBody env opts (!isUrl opts.url)
        { tempDirExists := true, destFiles := st.destFiles } = out at hd
      obtain ⟨r, st2⟩ := out
      cases r with
      | ok r =>
        rcases hd with ⟨⟨m, hm⟩, _⟩ | ⟨_, htmp⟩
        · exact nomatch hm
        · exact htmp
      | error m =>
        rw [h2]
        unfold rmTemp
        by_cases ht : st2.tempDirExists = true
        · simp [ht]
        · simp only [if_neg ht]
          simpa using ht
  · intro o1 o2
    exact (transcribeVideo_retry_irrel env o1 opts st).trans
      (transcribeVideo_retry_irrel env o2 opts st).symm

/-- C1 witness: on a fully successful run the temporary directory is gone
afterwards. -/
theorem claim1_cleanup_witness :
    (transcribeVideo demoEnv demoOpts {}).2.tempDirExists = false :=
  (claim1_cleanup demoEnv demoOpts {} rfl rfl rfl).1

/-- C1 counterexample: when the success-path `rmSync` fails, the error is
not swallowed — the call reports failure although all three artifacts were
written — and when the retry also fails the directory survives the call. -/
theorem claim1_cleanup_counterexample :
    (transcribeVideo demoEnvRmFail demoOpts {}).1 =
      .error "Transcription failed: EBUSY" ∧
    (transcribeVideo demoEnvRmFail demoOpts {}).2.tempDirExists = true ∧
    ((transcribeVideo demoEnvRmFail demoOpts {}).2.destFiles.map Prod.fst) =
      ["/out/xyz-Demo-Talk.txt", "/out/xyz-Demo-Talk.json", "/out/xyz-Demo-Talk.md"] :=
  ⟨rfl, rfl, rfl⟩

/-- C2 (amended): artifact writes are gated on both engine-output reads,
anything written is an in-order prefix of the artifact triple, and on
success the full triple is present with the transcript verbatim inside the
markdown document. -/
theorem claim2_artifact_completeness (env : PipelineEnv)
    (opts : TranscriptionOptions) (st : FsState) :
    (∃ extra, (transcribeVideo env opts st).2.destFiles = st.destFiles ++ extra ∧
      extra <+: expectedArtifacts env opts (!isUrl opts.url)) ∧
    ((∃ e, env.readTxt = .error e) ∨ (∃ e, env.readJson = .error e) →
      (transcribeVideo env opts st).2.destFiles = st.destFiles) ∧
    (∀ r, (transcribeVideo env opts st).1 = .ok r →
      (transcribeVideo env opts st).2.destFiles =
        st.destFiles ++ expectedArtifacts env opts (!isUrl opts.url) ∧
      env.readTxt = .ok r.transcript ∧
      (∃ jsonC pre post, env.readJson = .ok jsonC ∧
        expectedArtifacts env opts (!isUrl opts.url) =
          [(r.files.txt, r.transcript), (r.files.json, jsonC),
           (r.files.md, pre ++ r.transcript ++ post)] ∧
        (r.files.txt, r.transcript) ∈ (transcribeVideo env opts st).2.destFiles ∧
        (r.files.json, jsonC) ∈ (transcribeVideo env opts st).2.destFiles ∧
        (r.files.md, pre ++ r.transcript ++ post) ∈
          (transcribeVideo env opts st).2.destFiles)) := by
  unfold transcribeVideo
  dsimp only
  generalize (if (!isUrl opts.url) = true then validateLocalFile env.fileOnDisk env.resolvedPath
             else validateUrl opts.url) = v
  cases v with
  | error e =>
    refine ⟨⟨[], by simp, List.nil_prefix⟩, fun _ => rfl, fun r h => nomatch h⟩
  | ok u =>
    have hd := transcribeBody_dest env opts (!isUrl opts.url)
      { tempDirExists := true, destFiles := st.destFiles }
    have hrf := transcribeBody_read_failure env opts (!isUrl opts.url)
      { tempDirExists := true, destFiles := st.destFiles }
    generalize hout : transcribeBody env opts (!isUrl opts.url)
      { tempDirExists := true, destFiles := st.destFiles } = out at hd hrf
    obtain ⟨r0, st2⟩ := out
    obtain ⟨extra, he, hp, hok⟩ := hd
    cases r0 with
    | error m =>
      refine ⟨⟨extra, ?_, hp⟩, fun hread => ?_, fun r h => nomatch h⟩
      · rw [rmTemp_destFiles]
        exact he
      · rw [rmTemp_destFiles]
        exact hrf hread
    | ok r0 =>
      obtain ⟨hex, htr, jsonC, pre, post, hjson, hartifacts⟩ := hok r0 rfl
      refine ⟨⟨extra, he, hp⟩, fun hread => hrf hread, fun r h => ?_⟩
      obtain rfl : r0 = r := Except.ok.inj h
      subst hex
      refine ⟨he, htr, jsonC, pre, post, hjson, hartifacts, ?_, ?_, ?_⟩
      · rw [he, hartifacts]
        simp
      · rw [he, hartifacts]
        simp
      · rw [he, hartifacts]
        simp

/-- C2 witness: a read failure of the engine's text output leaves the
destination directory untouched. -/
theorem claim2_artifact_completeness_witness :
    (transcribeVideo demoEnvReadFail demoOpts {}).2.destFiles =
      ({} : FsState).destFiles :=
  (claim2_artifact_completeness demoEnvReadFail demoOpts {}).2.1
    (Or.inl ⟨"ENOENT", rfl⟩)

/-- C2 counterexample: when the write of the structured artifact fails,
the run fails but the plain-text artifact alone is left in the destination
directory — a partial artifact set on a failure path. -/
theorem claim2_artifact_completeness_counterexample :
    (∃ e, (transcribeVideo demoEnvWriteJsonFail demoOpts {}).1 = .error e) ∧
    (transcribeVideo demoEnvWriteJsonFail demoOpts {}).2.destFiles =
      [("/out/xyz-Demo-Talk.txt", "hello world")] :=
  ⟨⟨"Transcription failed: ENOSPC", rfl⟩, rfl⟩


end VideoTranscriber
